import Mathlib

/-!
Verification of the Digital Ocean HTTP function adapter
(src/adapters/digital-ocean/http-function.adapter.ts) against its
natural-language specification.

The adapter code is embedded shallowly: JavaScript objects appear as
ordered association lists, `undefined` as `Option.none`, potential
JavaScript exceptions as `Except Unit`, and the single in-place
mutation performed by `getRequest` (writing the content-length key of
the aliased `__ow_headers` object) as explicit state passing, with
`getRequest` returning both the canonical request and the post-call
event.  Two models of the request translation coexist: a typed total
one (`getRequest`, `getPathFromEvent`) over the declared event type,
and an untyped throw-capable one (`getRequestU`, `getPathFromEventU`)
over arbitrary values, which records the property accesses, the
strict-mode assignment, and the `replace` call that can throw; the two
are proved to agree on well-typed events.  The pattern handed to
`new RegExp` is modelled by a fragment (`parseRegexChars`,
`tokensMatch`) covering literal characters and the dot wildcard;
patterns outside the fragment, among them those whose construction
throws, are the error region of the model and no theorem relies on
their behaviour.  The helper utilities from the core package
(`getDefaultIfUndefined`, `getEventBodyAsBuffer`,
`getFlattenedHeadersMap`, `getPathWithQueryStringParams`) are not part
of the given sources and are modelled from the specification, as noted
on each definition.
-/

namespace DOAdapter

/-- A JavaScript string-to-string object, as an ordered association list
(property insertion order is the list order). -/
abbrev StrMap := List (String × String)

/-- Whether the object has the given key. -/
def hasKey (m : StrMap) (k : String) : Bool :=
  m.any (fun kv => kv.1 == k)

/-- JavaScript property assignment on a string map: an existing key keeps
its position and gets the new value, a new key is appended. -/
def setField (m : StrMap) (k v : String) : StrMap :=
  if hasKey m k then m.map (fun kv => if kv.1 == k then (k, v) else kv)
  else m ++ [(k, v)]

/-- A value that is either a single string or an ordered list of strings,
as appears in response header maps and query parameter maps. -/
inductive StrOrList where
  | single (s : String)
  | multi (l : List String)
deriving DecidableEq

/-- Truthiness of an optional JavaScript string: `undefined` and the empty
string are falsy. -/
def jsTruthyStr : Option String → Bool
  | some s => s != ""
  | none => false

/-- Modelled from the spec: getDefaultIfUndefined returns the fallback only
when the value is undefined, never for empty string, zero or false. -/
def getDefaultIfUndefined {α : Type} (v : Option α) (fallback : α) : α :=
  v.getD fallback

/-- UTF-8 encoding of a single Unicode code point, as a list of byte
values. -/
def utf8EncodeChar (c : Nat) : List Nat :=
  if c < 0x80 then [c]
  else if c < 0x800 then
    [0xC0 + c / 64, 0x80 + c % 64]
  else if c < 0x10000 then
    [0xE0 + c / 4096, 0x80 + (c / 64) % 64, 0x80 + c % 64]
  else
    [0xF0 + c / 262144, 0x80 + (c / 4096) % 64, 0x80 + (c / 64) % 64,
     0x80 + c % 64]

/-- UTF-8 encoding of a string as a list of byte values. -/
def utf8Encode (s : String) : List Nat :=
  (s.data.map (fun c => utf8EncodeChar c.toNat)).flatten

/-- The 6-bit value of a base64 alphabet character; none for padding and
any character outside the alphabet. -/
def b64Val (c : Char) : Option Nat :=
  if 'A' ≤ c ∧ c ≤ 'Z' then some (c.toNat - 65)
  else if 'a' ≤ c ∧ c ≤ 'z' then some (c.toNat - 97 + 26)
  else if '0' ≤ c ∧ c ≤ '9' then some (c.toNat - 48 + 52)
  else if c = '+' then some 62
  else if c = '/' then some 63
  else none

/-- Base64 decoding of a character list, four characters at a time, with
standard `=` padding handling. -/
def base64DecodeChars : List Char → List Nat
  | c1 :: c2 :: c3 :: c4 :: rest =>
    match b64Val c1, b64Val c2 with
    | some v1, some v2 =>
      let b1 := v1 * 4 + v2 / 16
      match b64Val c3 with
      | none => [b1]
      | some v3 =>
        let b2 := (v2 % 16) * 16 + v3 / 4
        match b64Val c4 with
        | none => [b1, b2]
        | some v4 => b1 :: b2 :: ((v3 % 4) * 64 + v4) :: base64DecodeChars rest
    | _, _ => []
  | _ => []

/-- Base64 decoding of a string to a list of byte values. -/
def base64Decode (s : String) : List Nat :=
  base64DecodeChars s.data

/-- Modelled from the spec: getEventBodyAsBuffer decodes the raw body to
raw bytes, base64-decoding when the flag is set and UTF-8-encoding the
text otherwise, and returns the bytes together with the decoded byte
length. -/
def getEventBodyAsBuffer (rawBody : String) (isBase64Encoded : Bool) :
    List Nat × Nat :=
  let bytes := if isBase64Encoded then base64Decode rawBody
               else utf8Encode rawBody
  (bytes, bytes.length)

/-- Flattening of one header value: a list of strings is joined with
commas in its original order, a single string passes through. -/
def flattenValue : StrOrList → String
  | .single s => s
  | .multi l => String.intercalate "," l

/-- Modelled from the spec: getFlattenedHeadersMap turns every header
value into a single string, joining multi-value entries with a comma in
their original order and passing single values through unchanged; key
casing and order are preserved. -/
def getFlattenedHeadersMap (headers : List (String × StrOrList)) : StrMap :=
  headers.map (fun kv => (kv.1, flattenValue kv.2))

/-- Whether a character needs no percent-encoding in a URL query
component. -/
def isUnreservedChar (c : Char) : Bool :=
  c.isAlphanum || c == '-' || c == '_' || c == '.' || c == '~'

/-- One hexadecimal digit character, uppercase. -/
def hexDigitChar (n : Nat) : Char :=
  if n < 10 then Char.ofNat (48 + n) else Char.ofNat (55 + n)

/-- Percent-encoding of a string for a URL query component: unreserved
characters pass through, every other character is replaced by the
percent-encoded bytes of its UTF-8 encoding. -/
def percentEncode (s : String) : String :=
  String.mk ((s.data.map (fun c =>
    if isUnreservedChar c then [c]
    else (utf8EncodeChar c.toNat).map (fun b =>
      ['%', hexDigitChar (b / 16), hexDigitChar (b % 16)]) |>.flatten)).flatten)

/-- The encoded key=value pair strings produced by one query parameter
entry: a multi-value entry is emitted as repeated pairs in its original
order. -/
def queryPairStrings (k : String) : StrOrList → List String
  | .single s => [percentEncode k ++ "=" ++ percentEncode s]
  | .multi l => l.map (fun s => percentEncode k ++ "=" ++ percentEncode s)

/-- Modelled from the spec: getPathWithQueryStringParams returns the path
optionally followed by a question mark and the URL-encoded key=value
pairs, multi-value parameters repeated in their original order; an
empty query map yields the bare path with no trailing question mark. -/
def getPathWithQueryStringParams (path : String)
    (queryParams : List (String × StrOrList)) : String :=
  let pairs := (queryParams.map (fun kv => queryPairStrings kv.1 kv.2)).flatten
  if pairs.isEmpty then path else path ++ "?" ++ String.intercalate "&" pairs

/-- An untyped JavaScript value, as far as the adapter inspects one:
the primitives, arrays, and string-keyed objects whose fields are again
such values. -/
inductive JSValue where
  | vNull
  | vUndefined
  | vBool (b : Bool)
  | vNum (n : Int)
  | vStr (s : String)
  | vArr (elems : List JSValue)
  | vObj (fields : List (String × JSValue))

/-- JavaScript truthiness of an untyped value (number semantics restricted
to integers, which suffices for the adapter); arrays and objects are
always truthy. -/
def truthy : JSValue → Bool
  | .vNull => false
  | .vUndefined => false
  | .vBool b => b
  | .vNum n => n != 0
  | .vStr s => s != ""
  | .vArr _ => true
  | .vObj _ => true

/-- Whether the value is the JavaScript undefined value. -/
def isUndef : JSValue → Bool
  | .vUndefined => true
  | _ => false

/-- Field lookup on an untyped object, by key. -/
def lookupField (fields : List (String × JSValue)) (k : String) :
    Option JSValue :=
  List.lookup k fields

/-- JavaScript property access: reading a property of null or undefined
throws a TypeError, reading an absent property of an object yields
undefined, and reading any property of another primitive yields
undefined. -/
def getProp : JSValue → String → Except Unit JSValue
  | .vNull, _ => .error ()
  | .vUndefined, _ => .error ()
  | .vObj fields, k => .ok ((lookupField fields k).getD .vUndefined)
  | _, _ => .ok .vUndefined

/-- Total property access used to state the recognition predicate: like
getProp but with undefined for null and undefined receivers (canHandle
never reaches those cases because of its truthiness guard). -/
def propOrUndef (v : JSValue) (k : String) : JSValue :=
  match getProp v k with
  | .ok w => w
  | .error _ => .vUndefined

/-- Whether the value has the given field defined (not undefined). -/
def fieldDefined (v : JSValue) (k : String) : Bool :=
  !isUndef (propOrUndef v k)

/-- HttpFunctionAdapter.canHandle: a short-circuited conjunction that
checks the value is truthy and its three Digital Ocean marker fields
are not undefined; each property access may in principle throw, which
the Except layer records. -/
def canHandle (event : JSValue) : Except Unit Bool :=
  if !truthy event then .ok false
  else
    match getProp event "__ow_path" with
    | .error e => .error e
    | .ok p =>
      if isUndef p then .ok false
      else
        match getProp event "__ow_method" with
        | .error e => .error e
        | .ok m =>
          if isUndef m then .ok false
          else
            match getProp event "__ow_headers" with
            | .error e => .error e
            | .ok h => .ok (!isUndef h)

/-- A well-typed Digital Ocean HTTP event, as the adapter reads it. -/
structure DigitalOceanHttpEvent where
  __ow_path : String
  __ow_method : String
  __ow_headers : StrMap
  __ow_body : Option String := none
  __ow_isBase64Encoded : Option Bool := none
  __ow_query : Option (List (String × StrOrList)) := none
deriving DecidableEq

/-- The untyped value of a string map, each entry a string-valued
property. -/
def headersToValue (m : StrMap) : JSValue :=
  .vObj (m.map (fun kv => (kv.1, JSValue.vStr kv.2)))

/-- The untyped value of an optional string: undefined when absent. -/
def optStrToValue : Option String → JSValue
  | some s => .vStr s
  | none => .vUndefined

/-- The untyped value of an optional boolean: undefined when absent. -/
def optBoolToValue : Option Bool → JSValue
  | some b => .vBool b
  | none => .vUndefined

/-- The untyped value of one query parameter entry: a single string or an
array of strings. -/
def queryEntryToValue : StrOrList → JSValue
  | .single s => .vStr s
  | .multi l => .vArr (l.map JSValue.vStr)

/-- The untyped value of an optional query map: undefined when absent. -/
def queryMapToValue : Option (List (String × StrOrList)) → JSValue
  | some q => .vObj (q.map (fun kv => (kv.1, queryEntryToValue kv.2)))
  | none => .vUndefined

/-- The untyped value corresponding to a well-typed event, used to relate
the typed translation functions to the untyped models.  Absent optional
fields are encoded as properties holding undefined, which is
indistinguishable from absence for every property read the adapter
performs. -/
def eventToValue (e : DigitalOceanHttpEvent) : JSValue :=
  .vObj [("__ow_path", .vStr e.__ow_path),
         ("__ow_method", .vStr e.__ow_method),
         ("__ow_headers", headersToValue e.__ow_headers),
         ("__ow_body", optStrToValue e.__ow_body),
         ("__ow_isBase64Encoded", optBoolToValue e.__ow_isBase64Encoded),
         ("__ow_query", queryMapToValue e.__ow_query)]

/-- The options of the HttpFunctionAdapter. -/
structure HttpFunctionAdapterOptions where
  stripBasePath : Option String := none
deriving DecidableEq

/-- The canonical request produced by getRequest (the body as decoded
bytes). -/
structure AdapterRequest where
  method : String
  headers : StrMap
  body : Option (List Nat)
  remoteAddress : Option String
  path : String
deriving DecidableEq

/-- The Digital Ocean platform response produced by getResponse. -/
structure DigitalOceanHttpResponse where
  statusCode : Nat
  body : String
  headers : StrMap
deriving DecidableEq

/-- Whether the first character list is a prefix of the second. -/
def charsPrefixOf : List Char → List Char → Bool
  | [], _ => true
  | _ :: _, [] => false
  | a :: as, b :: bs => a == b && charsPrefixOf as bs

/-- Whether the first string is a prefix of the second. -/
def strPrefixOf (p s : String) : Bool :=
  charsPrefixOf p.data s.data

/-- Whether a character is a regular-expression metacharacter of the
JavaScript pattern syntax (backslash, caret, dollar, dot, pipe,
question mark, star, plus, parentheses, square brackets, curly
brackets). -/
def isRegexMeta (c : Char) : Bool :=
  c == '\\' || c == '^' || c == '$' || c == '.' || c == '|' || c == '?' ||
  c == '*' || c == '+' || c == '(' || c == ')' || c == '[' || c == ']' ||
  c.toNat == 123 || c.toNat == 125

/-- Whether every character of the list is free of regular-expression
metacharacters. -/
def regexSafeChars : List Char → Bool
  | [] => true
  | c :: cs => !isRegexMeta c && regexSafeChars cs

/-- Whether the string contains no regular-expression metacharacter, so
that new RegExp treats it literally. -/
def regexSafe (p : String) : Bool :=
  regexSafeChars p.data

/-- One token of the modelled regular-expression fragment: a literal
character or the dot wildcard. -/
inductive RegexTok where
  | lit (c : Char)
  | dot

/-- Parsing the pattern handed to new RegExp into the modelled fragment:
dot is the wildcard, a character that is no metacharacter stands for
itself, and a pattern using any other metacharacter is outside the
fragment (none).  The outside region contains both patterns whose
construction throws a SyntaxError, such as a lone opening parenthesis,
and valid patterns with unmodelled operators; no theorem below relies
on behaviour in that region. -/
def parseRegexChars : List Char → Option (List RegexTok)
  | [] => some []
  | c :: cs =>
    if c == '.' then (parseRegexChars cs).map (fun ts => RegexTok.dot :: ts)
    else if isRegexMeta c then none
    else (parseRegexChars cs).map (fun ts => RegexTok.lit c :: ts)

/-- Whether a character is a JavaScript line terminator, which the dot
wildcard does not match. -/
def isLineTerminator (c : Char) : Bool :=
  c == '\n' || c == '\r' || c.toNat == 0x2028 || c.toNat == 0x2029

/-- Matching a token sequence against the start of a character list,
returning the characters after the match when one exists.  The
fragment has no quantifiers, so matching is deterministic. -/
def tokensMatch : List RegexTok → List Char → Option (List Char)
  | [], rest => some rest
  | _ :: _, [] => none
  | .lit l :: ts, c :: cs => if l == c then tokensMatch ts cs else none
  | .dot :: ts, c :: cs =>
    if isLineTerminator c then none else tokensMatch ts cs

/-- The replacement performed by s.replace(new RegExp(caret ++ pattern),
emptyString) for an already parsed pattern: the caret anchors the match
at position 0, so the anchored match is removed when one exists and the
string is unchanged otherwise. -/
def stripToks (toks : List RegexTok) (s : String) : String :=
  match tokensMatch toks s.data with
  | some rest => String.mk rest
  | none => s

/-- The replacement performed by s.replace(new RegExp(caret ++ pat),
emptyString) on the modelled pattern fragment; none when the pattern is
outside the fragment. -/
def replaceAnchored (pat : String) (s : String) : Option String :=
  (parseRegexChars pat.data).map (fun toks => stripToks toks s)

/-- Literal anchored prefix stripping, used by the total typed model of
getPathFromEvent below.  It agrees with the regular-expression model
replaceAnchored exactly on patterns free of metacharacters (theorem
replaceAnchored_safe); a pattern with metacharacters behaves per the
regular-expression model instead and can strip text the literal string
would not, which claim C6 records. -/
def stripAnchored (pat : String) (s : String) : String :=
  if strPrefixOf pat s then String.mk (s.data.drop pat.data.length) else s

/-- HttpFunctionAdapter.getPathFromEvent: resolves the configured strip
base path (default empty), strips it from the start of the raw path,
and appends the query parameters carried by the event. -/
def getPathFromEvent (options : Option HttpFunctionAdapterOptions)
    (event : DigitalOceanHttpEvent) : String :=
  let stripBasePath :=
    getDefaultIfUndefined (options.bind (fun o => o.stripBasePath)) ""
  let path := stripAnchored stripBasePath event.__ow_path
  let queryParams := event.__ow_query
  getPathWithQueryStringParams path (queryParams.getD [])

/-- HttpFunctionAdapter.getRequest.  In the source the local headers
binding aliases event.__ow_headers, so the content-length assignment
mutates the event; the embedding returns the canonical request together
with the post-call event, whose __ow_headers is the possibly updated
map. -/
def getRequest (options : Option HttpFunctionAdapterOptions)
    (event : DigitalOceanHttpEvent) :
    AdapterRequest × DigitalOceanHttpEvent :=
  let method := event.__ow_method
  let path := getPathFromEvent options event
  let headersAndBody :=
    if jsTruthyStr event.__ow_body then
      let raw := event.__ow_body.getD ""
      let decoded :=
        getEventBodyAsBuffer raw (event.__ow_isBase64Encoded.getD false)
      (setField event.__ow_headers "content-length" (toString decoded.2),
       some decoded.1)
    else
      (event.__ow_headers, none)
  let headers := headersAndBody.1
  let remoteAddress := List.lookup "x-forwarded-for" headers
  ({ method := method, headers := headers, body := headersAndBody.2,
     remoteAddress := remoteAddress, path := path },
   { event with __ow_headers := headers })

/-- Whether an untyped object has the given key. -/
def hasKeyJS (m : List (String × JSValue)) (k : String) : Bool :=
  m.any (fun kv => kv.1 == k)

/-- JavaScript property assignment on an untyped object: an existing key
keeps its position and gets the new value, a new key is appended. -/
def setFieldJS (m : List (String × JSValue)) (k : String) (v : JSValue) :
    List (String × JSValue) :=
  if hasKeyJS m k then m.map (fun kv => if kv.1 == k then (k, v) else kv)
  else m ++ [(k, v)]

/-- JavaScript property assignment in strict mode, as the compiled
adapter runs: assignment on an object updates it, assignment on null,
undefined or another primitive throws a TypeError.  Assignment into an
array, which JavaScript would accept, is never exercised by the claims
below and is conservatively mapped to the error case, so proofs of the
ok outcome are only strengthened by it. -/
def setProp : JSValue → String → JSValue → Except Unit JSValue
  | .vObj fields, k, v => .ok (.vObj (setFieldJS fields k v))
  | _, _, _ => .error ()

/-- Decoding a list of untyped values as a list of strings. -/
def listStrings : List JSValue → Option (List String)
  | [] => some []
  | .vStr s :: rest => (listStrings rest).map (fun l => s :: l)
  | _ => none

/-- Decoding one untyped query value into the domain of the spec-modelled
path utility: a string or an array of strings; anything else is outside
that domain. -/
def jsToQueryEntry : JSValue → Option StrOrList
  | .vStr s => some (.single s)
  | .vArr elems => (listStrings elems).map StrOrList.multi
  | _ => none

/-- Decoding an untyped object as a query map of the spec-modelled path
utility, entry by entry. -/
def jsToQueryMap : List (String × JSValue) → Option (List (String × StrOrList))
  | [] => some []
  | (k, v) :: rest =>
    match jsToQueryEntry v with
    | some e => (jsToQueryMap rest).map (fun m => (k, e) :: m)
    | none => none

/-- The untyped, throw-capable model of
HttpFunctionAdapter.getPathFromEvent, mirroring the order of the source
operations: new RegExp is constructed first (patterns outside the
modelled fragment, among them the ones whose construction throws, give
the error), then event.__ow_path.replace runs, which throws when
__ow_path is not a string, then the query map (or the empty object when
the query field is falsy) is handed to the path utility; an untyped
query value outside the domain of the spec-modelled utility is mapped
to the error case and is exercised by no claim. -/
def getPathFromEventU (options : Option HttpFunctionAdapterOptions)
    (event : JSValue) : Except Unit String :=
  let stripBasePath :=
    getDefaultIfUndefined (options.bind (fun o => o.stripBasePath)) ""
  match parseRegexChars stripBasePath.data with
  | none => .error ()
  | some toks =>
    match getProp event "__ow_path" with
    | .error e => .error e
    | .ok (.vStr rawPath) =>
      let path := stripToks toks rawPath
      match getProp event "__ow_query" with
      | .error e => .error e
      | .ok queryV =>
        if truthy queryV then
          match queryV with
          | .vObj fields =>
            match jsToQueryMap fields with
            | some qm => .ok (getPathWithQueryStringParams path qm)
            | none => .error ()
          | _ => .error ()
        else .ok (getPathWithQueryStringParams path [])
    | .ok _ => .error ()

/-- The canonical request produced by the untyped model: the fields the
source returns, with the values it read (method, headers and the
forwarded-for entry stay untyped, the path is a string whenever no
throw occurred). -/
structure JSRequest where
  method : JSValue
  headers : JSValue
  body : Option (List Nat)
  remoteAddress : JSValue
  path : String

/-- The untyped, throw-capable model of HttpFunctionAdapter.getRequest,
reading the event properties in source order: headers, method, the
path (through getPathFromEventU), then the body branch, which throws
when the truthy body is not a string (Buffer.from) or when the
content-length assignment hits a non-object headers value, then the
forwarded-for read on the possibly updated headers.  The in-place
headers mutation is tracked by the typed model; here only the returned
request matters. -/
def getRequestU (options : Option HttpFunctionAdapterOptions)
    (event : JSValue) : Except Unit JSRequest :=
  match getProp event "__ow_headers" with
  | .error e => .error e
  | .ok headers0 =>
    match getProp event "__ow_method" with
    | .error e => .error e
    | .ok method =>
      match getPathFromEventU options event with
      | .error e => .error e
      | .ok path =>
        match getProp event "__ow_body" with
        | .error e => .error e
        | .ok bodyV =>
          match
            (if truthy bodyV then
              match bodyV with
              | .vStr raw =>
                match getProp event "__ow_isBase64Encoded" with
                | .error e => .error e
                | .ok flagV =>
                  let decoded := getEventBodyAsBuffer raw (truthy flagV)
                  match setProp headers0 "content-length"
                      (.vStr (toString decoded.2)) with
                  | .error e => .error e
                  | .ok headers1 => .ok (headers1, some decoded.1)
              | _ => .error ()
            else .ok (headers0, none) :
              Except Unit (JSValue × Option (List Nat))) with
          | .error e => .error e
          | .ok hb =>
            match getProp hb.1 "x-forwarded-for" with
            | .error e => .error e
            | .ok remoteAddress =>
              .ok { method := method, headers := hb.1, body := hb.2,
                    remoteAddress := remoteAddress, path := path }

/-- The props of getResponse that the adapter reads (log is ignored by
the source and omitted). -/
structure GetResponseAdapterProps where
  headers : List (String × StrOrList)
  body : String
  statusCode : Nat
  event : DigitalOceanHttpEvent
  isBase64Encoded : Bool

/-- HttpFunctionAdapter.getResponse: flattens the canonical headers and
passes statusCode and body through unchanged. -/
def getResponse (props : GetResponseAdapterProps) :
    DigitalOceanHttpResponse :=
  let headers := getFlattenedHeadersMap props.headers
  { statusCode := props.statusCode, body := props.body, headers := headers }

/-- A JavaScript Error as the error path reads it: only the stack field,
which may be undefined. -/
structure JsError where
  stack : Option String := none
deriving DecidableEq

/-- JavaScript or-with-default on an optional string: body or the empty
string, where undefined and the empty string are falsy. -/
def jsOrEmpty : Option String → String
  | some s => if s == "" then "" else s
  | none => ""

/-- HttpFunctionAdapter.onErrorWhileForwarding: builds a 500 response
whose body is the error stack only under respondWithErrors, and
resolves the exchange through delegatedResolver.succeed.  The returned
list records the succeed calls in order. -/
def onErrorWhileForwarding (error : JsError) (respondWithErrors : Bool)
    (event : DigitalOceanHttpEvent) : List DigitalOceanHttpResponse :=
  let body := if respondWithErrors then error.stack else some ""
  let errorResponse := getResponse
    { event := event, statusCode := 500, body := jsOrEmpty body,
      headers := [], isBase64Encoded := false }
  [errorResponse]

/-- After replacing the value at a present key, looking the key up yields
the new value. -/
theorem lookup_map_replace (t : StrMap) (k v : String)
    (h : hasKey t k = true) :
    List.lookup k (t.map (fun kv => if kv.1 == k then (k, v) else kv)) =
      some v := by
  induction t with
  | nil => simp [hasKey] at h
  | cons kv t ih =>
    cases hbeq : kv.1 == k with
    | true =>
      simp only [List.map_cons, hbeq, if_true]
      simp [List.lookup]
    | false =>
      have hk'' : (k == kv.1) = false :=
        beq_eq_false_iff_ne.mpr (fun hc => (beq_eq_false_iff_ne.mp hbeq) hc.symm)
      have ht : hasKey t k = true := by
        simp [hasKey] at h ⊢
        rcases h with h | h
        · exact absurd h (beq_eq_false_iff_ne.mp hbeq)
        · exact h
      simp only [List.map_cons, hbeq, Bool.false_eq_true, if_false]
      simp [List.lookup, hk'']
      simpa using ih ht

/-- Looking up a key appended at the end of a map that does not contain
it yields the appended value. -/
theorem lookup_append_new (t : StrMap) (k v : String)
    (h : hasKey t k = false) :
    List.lookup k (t ++ [(k, v)]) = some v := by
  induction t with
  | nil => simp [List.lookup]
  | cons kv t ih =>
    have hk : kv.1 ≠ k := by
      intro hc
      simp [hasKey, hc] at h
    have hk'' : (k == kv.1) = false :=
      beq_eq_false_iff_ne.mpr (fun hc => hk hc.symm)
    have ht : hasKey t k = false := by
      simp [hasKey] at h ⊢
      exact fun a b hab hb => h.2 a b hab hb
    simp [List.lookup, hk'', ih ht]

/-- Looking up a key right after setting it yields the value just set. -/
theorem lookup_setField (m : StrMap) (k v : String) :
    List.lookup k (setField m k v) = some v := by
  unfold setField
  split
  · next hmem => exact lookup_map_replace m k v hmem
  · next hmem =>
    exact lookup_append_new m k v (Bool.not_eq_true _ ▸ eq_false_of_ne_true hmem)

/-- Appending an empty query map leaves the path unchanged. -/
theorem getPathWithQueryStringParams_nil (path : String) :
    getPathWithQueryStringParams path [] = path := rfl

/-- Rebuilding a string from its own character list is the identity. -/
theorem stringMk_data (s : String) : String.mk s.data = s := rfl

/-- The empty string is a prefix of every string. -/
theorem strPrefixOf_empty (s : String) : strPrefixOf "" s = true := rfl

/-- A pattern free of metacharacters parses as the sequence of its
characters taken literally. -/
theorem parseRegexChars_safe (l : List Char) (h : regexSafeChars l = true) :
    parseRegexChars l = some (l.map RegexTok.lit) := by
  induction l with
  | nil => rfl
  | cons c cs ih =>
    have h1 : isRegexMeta c = false := by
      cases hm : isRegexMeta c
      · rfl
      · simp [regexSafeChars, hm] at h
    have h2 : regexSafeChars cs = true := by
      cases hs : regexSafeChars cs
      · simp [regexSafeChars, hs] at h
      · rfl
    have hdot : (c == '.') = false := by
      cases hc : c == '.'
      · rfl
      · have hce := eq_of_beq hc
        subst hce
        simp [isRegexMeta] at h1
    simp [parseRegexChars, hdot, h1, ih h2]

/-- A sequence of literal tokens matches exactly the literal prefix and
consumes exactly its length. -/
theorem tokensMatch_lits (p s : List Char) :
    tokensMatch (p.map RegexTok.lit) s =
      if charsPrefixOf p s then some (s.drop p.length) else none := by
  induction p generalizing s with
  | nil => simp [tokensMatch, charsPrefixOf]
  | cons a as ih =>
    cases s with
    | nil => simp [tokensMatch, charsPrefixOf]
    | cons b bs =>
      cases hab : a == b
      · simp [tokensMatch, charsPrefixOf, hab]
      · simp [tokensMatch, charsPrefixOf, hab, ih bs]

/-- Stripping by a sequence of literal tokens is literal anchored prefix
stripping. -/
theorem stripToks_lits (p s : String) :
    stripToks (p.data.map RegexTok.lit) s = stripAnchored p s := by
  unfold stripToks stripAnchored strPrefixOf
  rw [tokensMatch_lits]
  cases h : charsPrefixOf p.data s.data <;> simp [h]

/-- On patterns free of metacharacters, the regular-expression model of
the source's replace agrees with literal anchored prefix stripping. -/
theorem replaceAnchored_safe (p s : String) (hp : regexSafe p = true) :
    replaceAnchored p s = some (stripAnchored p s) := by
  unfold replaceAnchored
  rw [parseRegexChars_safe p.data hp]
  simp [stripToks_lits]

/-- Looking a key up after mapping the values of an association list maps
the looked-up value. -/
theorem lookup_map_value {β γ : Type} (g : β → γ)
    (m : List (String × β)) (k : String) :
    List.lookup k (m.map (fun kv => (kv.1, g kv.2))) =
      (List.lookup k m).map g := by
  induction m with
  | nil => rfl
  | cons kv t ih =>
    cases hk : k == kv.1 <;> simp [List.lookup, hk, ih]

/-- Property access on the untyped value of a headers map is the lookup
in the map, with undefined for an absent key. -/
theorem getProp_headersToValue (m : StrMap) (k : String) :
    getProp (headersToValue m) k = .ok (optStrToValue (List.lookup k m)) := by
  cases h : List.lookup k m <;>
    simp [getProp, headersToValue, lookupField, lookup_map_value, h,
      optStrToValue]

/-- Key presence is preserved by the untyped encoding of a headers map. -/
theorem hasKeyJS_map (m : StrMap) (k : String) :
    hasKeyJS (m.map (fun kv => (kv.1, JSValue.vStr kv.2))) k = hasKey m k := by
  induction m with
  | nil => rfl
  | cons kv t ih => simp [hasKeyJS, hasKey] at ih ⊢; rw [ih]

/-- The untyped property assignment commutes with the encoding of a
headers map. -/
theorem setFieldJS_map (m : StrMap) (k v : String) :
    setFieldJS (m.map (fun kv => (kv.1, JSValue.vStr kv.2))) k (.vStr v) =
      (setField m k v).map (fun kv => (kv.1, JSValue.vStr kv.2)) := by
  unfold setFieldJS setField
  rw [hasKeyJS_map]
  cases hk : hasKey m k
  · simp
  · simp only [if_true, List.map_map]
    apply List.map_congr_left
    intro kv _
    cases hk2 : kv.1 == k <;> simp [Function.comp, hk2]

/-- Strict-mode assignment on the untyped value of a headers map succeeds
and performs the map-level assignment. -/
theorem setProp_headersToValue (m : StrMap) (k v : String) :
    setProp (headersToValue m) k (.vStr v) =
      .ok (headersToValue (setField m k v)) := by
  simp [setProp, headersToValue, setFieldJS_map]

/-- Decoding the untyped encoding of a string list yields the list. -/
theorem listStrings_map (l : List String) :
    listStrings (l.map JSValue.vStr) = some l := by
  induction l with
  | nil => rfl
  | cons s t ih => simp [listStrings, ih]

/-- Decoding the untyped encoding of one query entry yields the entry. -/
theorem jsToQueryEntry_roundtrip (e : StrOrList) :
    jsToQueryEntry (queryEntryToValue e) = some e := by
  cases e with
  | single s => rfl
  | multi l => simp [queryEntryToValue, jsToQueryEntry, listStrings_map]

/-- Decoding the untyped encoding of a query map yields the map. -/
theorem jsToQueryMap_roundtrip (q : List (String × StrOrList)) :
    jsToQueryMap (q.map (fun kv => (kv.1, queryEntryToValue kv.2))) =
      some q := by
  induction q with
  | nil => rfl
  | cons kv t ih =>
    obtain ⟨k, v⟩ := kv
    simp [jsToQueryMap, jsToQueryEntry_roundtrip, ih]

/-- Reading the path property of an encoded event. -/
theorem getProp_event_path (e : DigitalOceanHttpEvent) :
    getProp (eventToValue e) "__ow_path" = .ok (.vStr e.__ow_path) := rfl

/-- Reading the method property of an encoded event. -/
theorem getProp_event_method (e : DigitalOceanHttpEvent) :
    getProp (eventToValue e) "__ow_method" = .ok (.vStr e.__ow_method) := rfl

/-- Reading the headers property of an encoded event. -/
theorem getProp_event_headers (e : DigitalOceanHttpEvent) :
    getProp (eventToValue e) "__ow_headers" =
      .ok (headersToValue e.__ow_headers) := rfl

/-- Reading the body property of an encoded event. -/
theorem getProp_event_body (e : DigitalOceanHttpEvent) :
    getProp (eventToValue e) "__ow_body" =
      .ok (optStrToValue e.__ow_body) := rfl

/-- Reading the base64 flag property of an encoded event. -/
theorem getProp_event_b64 (e : DigitalOceanHttpEvent) :
    getProp (eventToValue e) "__ow_isBase64Encoded" =
      .ok (optBoolToValue e.__ow_isBase64Encoded) := rfl

/-- Reading the query property of an encoded event. -/
theorem getProp_event_query (e : DigitalOceanHttpEvent) :
    getProp (eventToValue e) "__ow_query" =
      .ok (queryMapToValue e.__ow_query) := rfl

/-- Truthiness of the encoded base64 flag is the flag with default
false. -/
theorem truthy_optBool (o : Option Bool) :
    truthy (optBoolToValue o) = o.getD false := by
  cases o with
  | none => rfl
  | some b => rfl

/-- On a well-typed event and a configuration whose resolved strip base
path is free of metacharacters, the untyped throw-capable path model
returns exactly the path of the typed model. -/
theorem getPathFromEventU_typed (options : Option HttpFunctionAdapterOptions)
    (event : DigitalOceanHttpEvent)
    (hp : regexSafe (getDefaultIfUndefined
      (options.bind (fun o => o.stripBasePath)) "") = true) :
    getPathFromEventU options (eventToValue event) =
      .ok (getPathFromEvent options event) := by
  cases hq : event.__ow_query with
  | none =>
    simp [getPathFromEventU, getPathFromEvent, parseRegexChars_safe _ hp,
      getProp_event_path, getProp_event_query, hq, queryMapToValue, truthy,
      stripToks_lits]
  | some q =>
    simp [getPathFromEventU, getPathFromEvent, parseRegexChars_safe _ hp,
      getProp_event_path, getProp_event_query, hq, queryMapToValue, truthy,
      stripToks_lits, jsToQueryMap_roundtrip]

/-- Claim C1 counterexample: getRequest is not free of side effects on the
event.  On an event carrying a body, the local headers binding aliases
the __ow_headers object of the event, so writing the content-length key
mutates the event: after the call the __ow_headers map differs from its
value before the call. -/
theorem C1_counterexample :
    (getRequest none
        { __ow_path := "/", __ow_method := "GET", __ow_headers := [],
          __ow_body := some "x" }).2.__ow_headers ≠
      ({ __ow_path := "/", __ow_method := "GET", __ow_headers := [],
         __ow_body := some "x" } : DigitalOceanHttpEvent).__ow_headers := by
  decide

/-- Claim C1, amended: getRequest performs no side effect beyond reading
the event, except that when the event carries a truthy body it writes
the content-length key of the aliased __ow_headers map of the event to
the decoded byte length; an event with no truthy body is returned
entirely unchanged, and no other field of the event ever changes. -/
theorem C1_event_headers_mutation
    (options : Option HttpFunctionAdapterOptions)
    (event : DigitalOceanHttpEvent) :
    (jsTruthyStr event.__ow_body = false →
      (getRequest options event).2 = event) ∧
    (jsTruthyStr event.__ow_body = true →
      (getRequest options event).2 =
        { event with
            __ow_headers := setField event.__ow_headers "content-length"
              (toString (getEventBodyAsBuffer (event.__ow_body.getD "")
                (event.__ow_isBase64Encoded.getD false)).2) }) := by
  constructor
  · intro h
    simp [getRequest, h]
  · intro h
    simp [getRequest, h]

/-- Claim C1 witness: evaluating both branches of the amended claim at
concrete events. -/
theorem C1_event_headers_mutation_witness :
    (getRequest none
        { __ow_path := "/", __ow_method := "GET",
          __ow_headers := [("a", "b")] }).2 =
      { __ow_path := "/", __ow_method := "GET",
        __ow_headers := [("a", "b")] } ∧
    (getRequest none
        { __ow_path := "/", __ow_method := "GET", __ow_headers := [],
          __ow_body := some "x" }).2 =
      { __ow_path := "/", __ow_method := "GET",
        __ow_headers := [("content-length", "1")], __ow_body := some "x" } :=
  ⟨(C1_event_headers_mutation none _).1 rfl,
   (C1_event_headers_mutation none _).2 rfl⟩

/-- Claim C2: for every error, flag and event, onErrorWhileForwarding
invokes the delegated resolver succeed callback exactly once; the
embedding records the succeed calls as a list, and internal response
construction is total, so the exchange is always resolved. -/
theorem C2_succeed_called_exactly_once (error : JsError)
    (respondWithErrors : Bool) (event : DigitalOceanHttpEvent) :
    (onErrorWhileForwarding error respondWithErrors event).length = 1 := rfl

/-- Claim C3: with respondWithErrors off the resolved response is a 500
with empty body regardless of the error; with respondWithErrors on the
resolved body is exactly the stack of the error whenever the error has
one. -/
theorem C3_error_body_gating (error : JsError)
    (event : DigitalOceanHttpEvent) :
    ((onErrorWhileForwarding error false event).map
        (fun r => (r.statusCode, r.body)) = [(500, "")]) ∧
    (∀ s, error.stack = some s →
      (onErrorWhileForwarding error true event).map
        (fun r => (r.statusCode, r.body)) = [(500, s)]) := by
  refine ⟨rfl, ?_⟩
  intro s hs
  simp [onErrorWhileForwarding, getResponse, getFlattenedHeadersMap,
    jsOrEmpty, hs]
  exact fun h => h.symm

/-- Claim C3 witness: both flag values evaluated at a concrete error with
a stack. -/
theorem C3_error_body_gating_witness :
    ((onErrorWhileForwarding { stack := some "trace" } false
        { __ow_path := "/", __ow_method := "GET", __ow_headers := [] }).map
        (fun r => (r.statusCode, r.body)) = [(500, "")]) ∧
    ((onErrorWhileForwarding { stack := some "trace" } true
        { __ow_path := "/", __ow_method := "GET", __ow_headers := [] }).map
        (fun r => (r.statusCode, r.body)) = [(500, "trace")]) :=
  ⟨(C3_error_body_gating _ _).1,
   (C3_error_body_gating { stack := some "trace" } _).2 "trace" rfl⟩

/-- Claim C4: canHandle never throws on any untyped input, and returns
true exactly when the input is truthy and its three Digital Ocean
marker fields are all defined; on every other input it returns false
rather than erroring. -/
theorem C4_canHandle_total_characterisation (v : JSValue) :
    canHandle v = .ok (truthy v && fieldDefined v "__ow_path" &&
      fieldDefined v "__ow_method" && fieldDefined v "__ow_headers") := by
  cases v with
  | vNull => rfl
  | vUndefined => rfl
  | vBool b => cases b <;> rfl
  | vNum n =>
    by_cases h : n = 0
    · simp [canHandle, truthy, fieldDefined, propOrUndef, getProp, isUndef, h]
    · simp [canHandle, truthy, fieldDefined, propOrUndef, getProp, isUndef, h]
  | vStr s =>
    by_cases h : s = "" <;>
      simp [canHandle, truthy, fieldDefined, propOrUndef, getProp, isUndef, h]
  | vArr elems => rfl
  | vObj fields =>
    cases hp : isUndef ((lookupField fields "__ow_path").getD .vUndefined) <;>
      cases hm : isUndef ((lookupField fields "__ow_method").getD .vUndefined) <;>
        simp [canHandle, truthy, fieldDefined, propOrUndef, getProp, hp, hm]

/-- Claim C5 counterexample: the claim fails in two independent ways.
First, canHandle checks definedness only, so the event whose __ow_path
is the number 123 is recognized, yet getRequest throws there: replace
is not a function on a number (modelled by the throw-capable
getRequestU).  Second, the well-typed event with empty __ow_path is
recognized, yet the returned path is empty rather than non-empty. -/
theorem C5_counterexample :
    canHandle (.vObj [("__ow_path", .vNum 123), ("__ow_method", .vStr "GET"),
        ("__ow_headers", .vObj [])]) = .ok true ∧
    getRequestU none (.vObj [("__ow_path", .vNum 123),
        ("__ow_method", .vStr "GET"), ("__ow_headers", .vObj [])]) =
      .error () ∧
    canHandle (eventToValue
        { __ow_path := "", __ow_method := "GET", __ow_headers := [] }) =
      .ok true ∧
    (getRequest none
        { __ow_path := "", __ow_method := "GET",
          __ow_headers := [] }).1.path = "" :=
  ⟨rfl, rfl, rfl, rfl⟩

/-- Claim C5, amended: for every well-typed Digital Ocean event, which
canHandle always accepts, and every configuration whose stripBasePath
is free of regular-expression metacharacters, getRequest does not throw
and returns a canonical request carrying the method of the event, a
path (possibly empty when __ow_path is empty or entirely consumed by
base-path stripping), and a headers map; the untyped throw-capable
model agrees with the typed translation on every field.  On recognized
values outside the declared event type, and on configurations whose
pattern is invalid, getRequest can throw instead. -/
theorem C5_recognized_request_shape
    (options : Option HttpFunctionAdapterOptions)
    (event : DigitalOceanHttpEvent)
    (hp : regexSafe (getDefaultIfUndefined
      (options.bind (fun o => o.stripBasePath)) "") = true) :
    canHandle (eventToValue event) = .ok true ∧
    getRequestU options (eventToValue event) =
      .ok { method := .vStr event.__ow_method,
            headers := headersToValue (getRequest options event).1.headers,
            body := (getRequest options event).1.body,
            remoteAddress :=
              optStrToValue (getRequest options event).1.remoteAddress,
            path := (getRequest options event).1.path } := by
  refine ⟨rfl, ?_⟩
  cases hb : event.__ow_body with
  | none =>
    simp [getRequestU, getProp_event_headers, getProp_event_method,
      getProp_event_body, getPathFromEventU_typed options event hp, hb,
      optStrToValue, truthy, getRequest, jsTruthyStr, getProp_headersToValue]
  | some s =>
    by_cases hs : s = ""
    · subst hs
      simp [getRequestU, getProp_event_headers, getProp_event_method,
        getProp_event_body, getPathFromEventU_typed options event hp, hb,
        optStrToValue, truthy, getRequest, jsTruthyStr,
        getProp_headersToValue]
    · cases hb64 : event.__ow_isBase64Encoded <;>
        simp [getRequestU, getProp_event_headers, getProp_event_method,
          getProp_event_body, getProp_event_b64,
          getPathFromEventU_typed options event hp, hb, hb64, hs,
          optStrToValue, optBoolToValue, truthy, getRequest, jsTruthyStr,
          setProp_headersToValue, getProp_headersToValue]

/-- Claim C5 witness: the amended claim evaluated at a concrete
recognized event carrying a body, with the default configuration. -/
theorem C5_recognized_request_shape_witness :
    canHandle (eventToValue
        { __ow_path := "/a", __ow_method := "GET",
          __ow_headers := [("x-forwarded-for", "1.2.3.4")],
          __ow_body := some "hi" }) = .ok true ∧
    getRequestU none (eventToValue
        { __ow_path := "/a", __ow_method := "GET",
          __ow_headers := [("x-forwarded-for", "1.2.3.4")],
          __ow_body := some "hi" }) =
      .ok { method := .vStr "GET",
            headers := headersToValue
              [("x-forwarded-for", "1.2.3.4"), ("content-length", "2")],
            body := some [104, 105],
            remoteAddress := .vStr "1.2.3.4",
            path := "/a" } :=
  C5_recognized_request_shape none _ rfl

/-- Claim C6 counterexample: base-path stripping is not a match of the
configured string taken literally.  The source builds a regular
expression from the raw configured string, so the configured
stripBasePath consisting of a single dot, which occurs nowhere in the
path /users, still removes its first character: the anchored wildcard
matches the leading slash. -/
theorem C6_counterexample :
    strPrefixOf "." "/users" = false ∧
    replaceAnchored "." "/users" = some "users" ∧
    getPathFromEventU (some { stripBasePath := some "." })
      (eventToValue
        { __ow_path := "/users", __ow_method := "GET",
          __ow_headers := [] }) = .ok "users" :=
  ⟨rfl, rfl, rfl⟩

/-- Claim C6, amended: the pattern built from stripBasePath is anchored
at position 0 and never strips mid-string; when stripBasePath is free
of regular-expression metacharacters it is removed as a literal prefix
exactly when it matches at position 0 and the stripped result drops
exactly the prefix, the two spec examples evaluate as stated, and the
default configuration strips nothing; a stripBasePath containing
metacharacters is interpreted as a regular expression instead and can
remove text differing from the literal configured string, or make
pattern construction throw. -/
theorem C6_base_path_stripping (p : String) (event : DigitalOceanHttpEvent)
    (hq : event.__ow_query = none) (hp : regexSafe p = true) :
    (strPrefixOf p event.__ow_path = false →
      getPathFromEventU (some { stripBasePath := some p })
        (eventToValue event) = .ok event.__ow_path) ∧
    (strPrefixOf p event.__ow_path = true →
      getPathFromEventU (some { stripBasePath := some p })
        (eventToValue event) =
          .ok (String.mk (event.__ow_path.data.drop p.data.length))) ∧
    getPathFromEventU none (eventToValue event) = .ok event.__ow_path ∧
    getPathFromEventU (some { stripBasePath := some "/api" })
      (eventToValue
        { __ow_path := "/api/users", __ow_method := "GET",
          __ow_headers := [] }) = .ok "/users" ∧
    getPathFromEventU (some { stripBasePath := some "/api" })
      (eventToValue
        { __ow_path := "/other/api/x", __ow_method := "GET",
          __ow_headers := [] }) = .ok "/other/api/x" := by
  have hbase := getPathFromEventU_typed
    (some { stripBasePath := some p }) event hp
  refine ⟨?_, ?_, ?_, rfl, rfl⟩
  · intro h
    rw [hbase]
    simp [getPathFromEvent, getDefaultIfUndefined, stripAnchored, h, hq,
      getPathWithQueryStringParams]
  · intro h
    rw [hbase]
    simp [getPathFromEvent, getDefaultIfUndefined, stripAnchored, h, hq,
      getPathWithQueryStringParams]
  · rw [getPathFromEventU_typed none event rfl]
    simp [getPathFromEvent, getDefaultIfUndefined, stripAnchored,
      strPrefixOf_empty, hq, getPathWithQueryStringParams, stringMk_data]

/-- Claim C6 witness: both general branches of the amended claim
evaluated at concrete inputs (a non-matching strip base path leaves the
path unchanged, a matching one drops exactly the prefix). -/
theorem C6_base_path_stripping_witness :
    getPathFromEventU (some { stripBasePath := some "/x" })
      (eventToValue
        { __ow_path := "/y", __ow_method := "GET",
          __ow_headers := [] }) = .ok "/y" ∧
    getPathFromEventU (some { stripBasePath := some "/api" })
      (eventToValue
        { __ow_path := "/api/users", __ow_method := "GET",
          __ow_headers := [] }) =
      .ok (String.mk ("/api/users".data.drop "/api".data.length)) :=
  ⟨(C6_base_path_stripping "/x" _ rfl rfl).1 (by decide),
   (C6_base_path_stripping "/api" _ rfl rfl).2.1 (by decide)⟩

/-- Claim C7: when the event carries a truthy body, getRequest decodes it
(base64 when flagged, UTF-8 text otherwise), returns the decoded bytes
as the request body and sets the content-length header to the decoded
byte length; when the event carries no body (absent or empty), the body
is absent and the headers map is left exactly as it was. -/
theorem C7_body_decoding (options : Option HttpFunctionAdapterOptions)
    (event : DigitalOceanHttpEvent) :
    (∀ s, event.__ow_body = some s → s ≠ "" →
      (getRequest options event).1.body =
        some (getEventBodyAsBuffer s
          (event.__ow_isBase64Encoded.getD false)).1 ∧
      List.lookup "content-length" (getRequest options event).1.headers =
        some (toString (getEventBodyAsBuffer s
          (event.__ow_isBase64Encoded.getD false)).1.length)) ∧
    (jsTruthyStr event.__ow_body = false →
      (getRequest options event).1.body = none ∧
      (getRequest options event).1.headers = event.__ow_headers) := by
  constructor
  · intro s hs hne
    have hts : jsTruthyStr (some s) = true := by
      simp [jsTruthyStr, hne]
    constructor
    · simp [getRequest, hs, hts, getEventBodyAsBuffer]
    · simp [getRequest, hs, hts]
      exact lookup_setField _ _ _
  · intro h
    constructor <;> simp [getRequest, h]

/-- Claim C7 witness: a base64 body of four encoded characters decodes to
two bytes; the request carries the decoded bytes and a content-length
of two, the decoded byte length rather than the encoded string
length. -/
theorem C7_body_decoding_witness :
    (getRequest none
        { __ow_path := "/x", __ow_method := "POST", __ow_headers := [],
          __ow_body := some "aGk=",
          __ow_isBase64Encoded := some true }).1.body = some [104, 105] ∧
    List.lookup "content-length"
      (getRequest none
        { __ow_path := "/x", __ow_method := "POST", __ow_headers := [],
          __ow_body := some "aGk=",
          __ow_isBase64Encoded := some true }).1.headers = some "2" :=
  (C7_body_decoding none _).1 "aGk=" rfl (by decide)

/-- Claim C8: getResponse passes statusCode and body through unchanged
and flattens the headers, joining each multi-valued entry with commas
in its original order and passing each single-valued entry through
unchanged; in particular the set-cookie example of the spec evaluates
as stated. -/
theorem C8_getResponse_flattening (props : GetResponseAdapterProps) :
    (getResponse props).statusCode = props.statusCode ∧
    (getResponse props).body = props.body ∧
    (getResponse props).headers =
      props.headers.map (fun kv => (kv.1, flattenValue kv.2)) ∧
    (∀ k s, getFlattenedHeadersMap [(k, .single s)] = [(k, s)]) ∧
    (∀ k l, getFlattenedHeadersMap [(k, .multi l)] =
      [(k, String.intercalate "," l)]) ∧
    getFlattenedHeadersMap [("set-cookie", .multi ["a=1", "b=2"])] =
      [("set-cookie", "a=1,b=2")] :=
  ⟨rfl, rfl, rfl, fun _ _ => rfl, fun _ _ => rfl, by decide⟩

/-- Claim C9: the body of the error-fallback response is always a string,
never undefined.  When respondWithErrors is set but the stack of the
error is undefined or empty, the resolved body is the empty string and
the exchange still completes. -/
theorem C9_error_body_total (event : DigitalOceanHttpEvent)
    (error : JsError) :
    (error.stack = none →
      (onErrorWhileForwarding error true event).map (fun r => r.body) =
        [""]) ∧
    (error.stack = some "" →
      (onErrorWhileForwarding error true event).map (fun r => r.body) =
        [""]) := by
  constructor <;> intro h <;>
    simp [onErrorWhileForwarding, getResponse, jsOrEmpty, h]

/-- Claim C9 witness: both degenerate stacks evaluated at a concrete
event. -/
theorem C9_error_body_total_witness :
    ((onErrorWhileForwarding { stack := none } true
        { __ow_path := "/", __ow_method := "GET", __ow_headers := [] }).map
        (fun r => r.body) = [""]) ∧
    ((onErrorWhileForwarding { stack := some "" } true
        { __ow_path := "/", __ow_method := "GET", __ow_headers := [] }).map
        (fun r => r.body) = [""]) :=
  ⟨(C9_error_body_total _ { stack := none }).1 rfl,
   (C9_error_body_total _ { stack := some "" }).2 rfl⟩

/-- Claim C10: for every error, flag and event, the response resolved by
onErrorWhileForwarding has status code 500 and an empty headers map. -/
theorem C10_error_response_status_headers (error : JsError)
    (respondWithErrors : Bool) (event : DigitalOceanHttpEvent) :
    (onErrorWhileForwarding error respondWithErrors event).map
      (fun r => (r.statusCode, r.headers)) = [(500, ([] : StrMap))] := rfl

end DOAdapter
